/-
Verification of the pbmstrk/text-classification repository.

Shallow embedding of the repository's Python code:
* tensors become functions over `Fin`-indexed coordinates with entries in `ℝ`
  (floating point is idealised as real arithmetic),
* Python lists become Lean `List`s, dicts become functions into `Option`,
* code that can raise becomes `Option`/`Except`,
* `nn.Dropout` with dropout disabled (eval mode / p = 0) is the identity and
  is therefore omitted from the functional translations.
-/
import Mathlib

namespace TextClassification

noncomputable section TensorModel

/-! ### `models/transformer.py`: scaled dot-product attention -/

/-- Model of `torch.softmax(v, dim = -1)` on one row: entry `j` is
`exp (v j) / Σ i, exp (v i)`. -/
noncomputable def softmaxR {n : ℕ} (v : Fin n → ℝ) (j : Fin n) : ℝ :=
  Real.exp (v j) / ∑ i, Real.exp (v i)

/-- Model of `energy = torch.einsum('...ij,...kj->...ik', [q, k]) / self.scale`.
The ellipsis batch dimensions are modelled by an arbitrary index type `β`. -/
def sdpaEnergy {β : Type} {m n d : ℕ} (scale : ℝ)
    (q : β → Fin m → Fin d → ℝ) (k : β → Fin n → Fin d → ℝ) :
    β → Fin m → Fin n → ℝ :=
  fun b i j => (∑ t, q b i t * k b j t) / scale

/-- Model of `energy.masked_fill(mask == 0, -1e10)`; the optional mask tensor is
integer-valued (in this repository it is the boolean tensor `src != 0`). -/
def maskedFill {β : Type} {m n : ℕ} (mask : Option (β → Fin m → Fin n → ℤ))
    (e : β → Fin m → Fin n → ℝ) : β → Fin m → Fin n → ℝ :=
  match mask with
  | none => e
  | some msk => fun b i j => if msk b i j = 0 then -(10 : ℝ) ^ 10 else e b i j

/-- Model of `ScaledDotProductAttention.forward(q, k, v, mask)` with dropout disabled:
returns the pair `(attention @ v, attention)` where
`attention = softmax(masked energy, dim = -1)`. -/
noncomputable def ScaledDotProductAttention_forward {β : Type} {m n d u : ℕ}
    (scale : ℝ) (q : β → Fin m → Fin d → ℝ) (k : β → Fin n → Fin d → ℝ)
    (v : β → Fin n → Fin u → ℝ) (mask : Option (β → Fin m → Fin n → ℤ)) :
    (β → Fin m → Fin u → ℝ) × (β → Fin m → Fin n → ℝ) :=
  let attention := fun b i j => softmaxR (maskedFill mask (sdpaEnergy scale q k) b i) j
  (fun b i t => ∑ j, attention b i j * v b j t, attention)

/-! ### `models/transformer.py`: multi-head attention -/

/-- Position `hh * d + dd` of the flat hidden dimension: the `dd`-th column of
the `hh`-th `head_dim`-wide block. -/
def headIndex {h d : ℕ} (hh : Fin h) (dd : Fin d) : Fin (h * d) :=
  ⟨hh.1 * d + dd.1, by
    have h1 : hh.1 + 1 ≤ h := hh.isLt
    calc hh.1 * d + dd.1 < hh.1 * d + d := Nat.add_lt_add_left dd.isLt _
      _ = (hh.1 + 1) * d := by ring
      _ ≤ h * d := Nat.mul_le_mul_right d h1⟩

/-- The head that a flat hidden coordinate belongs to (`kk / head_dim`). -/
def headOf {h d : ℕ} (kk : Fin (h * d)) : Fin h :=
  ⟨kk.1 / d, by
    have hlt := kk.isLt
    have hd : 0 < d := by
      rcases Nat.eq_zero_or_pos d with h0 | h0
      · subst h0; simp at hlt
      · exact h0
    exact (Nat.div_lt_iff_lt_mul hd).mpr hlt⟩

/-- The within-head coordinate of a flat hidden coordinate (`kk % head_dim`). -/
def dimOf {h d : ℕ} (kk : Fin (h * d)) : Fin d :=
  ⟨kk.1 % d, by
    have hlt := kk.isLt
    have hd : 0 < d := by
      rcases Nat.eq_zero_or_pos d with h0 | h0
      · subst h0; simp at hlt
      · exact h0
    exact Nat.mod_lt _ hd⟩

/-- Model of `torch.einsum('...ij,jk->...ik', [x, w])`: a batched matrix product with a
shared weight matrix. -/
def einsum_ij_jk {bs s p r : ℕ} (x : Fin bs → Fin s → Fin p → ℝ)
    (w : Fin p → Fin r → ℝ) : Fin bs → Fin s → Fin r → ℝ :=
  fun b i kk => ∑ j, x b i j * w j kk

/-- Model of `x.view(batch_size, -1, num_heads, head_dim).permute(0, 2, 1, 3)`:
element `(b, hh, i, dd)` of the result is element `(b, i, hh * head_dim + dd)`
of the contiguous input. -/
def splitHeads {bs s h d : ℕ} (x : Fin bs → Fin s → Fin (h * d) → ℝ) :
    (Fin bs × Fin h) → Fin s → Fin d → ℝ :=
  fun bh i dd => x bh.1 i (headIndex bh.2 dd)

/-- Model of `y.permute(0, 2, 1, 3).contiguous().view(batch_size, -1, hid_dim)`:
element `(b, i, kk)` of the result is element `(b, kk / head_dim, i, kk % head_dim)`
of the input. -/
def mergeHeads {bs s h d : ℕ} (y : (Fin bs × Fin h) → Fin s → Fin d → ℝ) :
    Fin bs → Fin s → Fin (h * d) → ℝ :=
  fun b i kk => y (b, headOf kk) i (dimOf kk)

/-- Model of `MultiHeadAttentionLayer.forward(query, key, value, mask)` with dropout
disabled, for `hid_dim = h * d` and `num_heads = h` (the constructor's
divisibility assertion holds by construction): fused projections, the
view/permute head split, the shared `ScaledDotProductAttention` with
`scale = sqrt(head_dim)`, the inverse permute/view merge, and `out_proj`. -/
noncomputable def MultiHeadAttentionLayer_forward {bs sq sk h d : ℕ}
    (q_proj_weight k_proj_weight v_proj_weight out_proj :
      Fin (h * d) → Fin (h * d) → ℝ)
    (query : Fin bs → Fin sq → Fin (h * d) → ℝ)
    (key : Fin bs → Fin sk → Fin (h * d) → ℝ)
    (value : Fin bs → Fin sk → Fin (h * d) → ℝ)
    (mask : Option ((Fin bs × Fin h) → Fin sq → Fin sk → ℤ)) :
    (Fin bs → Fin sq → Fin (h * d) → ℝ) ×
      ((Fin bs × Fin h) → Fin sq → Fin sk → ℝ) :=
  let q := einsum_ij_jk query q_proj_weight
  let k := einsum_ij_jk key k_proj_weight
  let v := einsum_ij_jk value v_proj_weight
  let res := ScaledDotProductAttention_forward (Real.sqrt d)
    (splitHeads q) (splitHeads k) (splitHeads v) mask
  (einsum_ij_jk (mergeHeads res.1) out_proj, res.2)

/-- The `hh`-th `head_dim`-wide column block `W^X_hh` of a fused projection
matrix, as in the textbook per-head formulation. -/
def headSlice {h d : ℕ} (w : Fin (h * d) → Fin (h * d) → ℝ) (hh : Fin h) :
    Fin (h * d) → Fin d → ℝ :=
  fun j dd => w j (headIndex hh dd)

/-- Textbook reference definition of one attention head:
`head_hh = softmax((query W^Q_hh)(key W^K_hh)^T / sqrt(head_dim)) (value W^V_hh)`. -/
noncomputable def referenceHead {bs sq sk h d : ℕ}
    (wq wk wv : Fin (h * d) → Fin (h * d) → ℝ)
    (query : Fin bs → Fin sq → Fin (h * d) → ℝ)
    (key : Fin bs → Fin sk → Fin (h * d) → ℝ)
    (value : Fin bs → Fin sk → Fin (h * d) → ℝ)
    (hh : Fin h) : Fin bs → Fin sq → Fin d → ℝ :=
  fun b i dd =>
    ∑ j, softmaxR (fun jj =>
        (∑ t, einsum_ij_jk query (headSlice wq hh) b i t *
            einsum_ij_jk key (headSlice wk hh) b jj t) / Real.sqrt d) j *
      einsum_ij_jk value (headSlice wv hh) b j dd

/-- Textbook reference definition of multi-head attention:
`Concat(head_1, ..., head_h)` (column `kk` of the concatenation is column
`kk % head_dim` of head `kk / head_dim`) multiplied by `out_proj`. -/
noncomputable def referenceMultiHeadAttention {bs sq sk h d : ℕ}
    (wq wk wv wo : Fin (h * d) → Fin (h * d) → ℝ)
    (query : Fin bs → Fin sq → Fin (h * d) → ℝ)
    (key : Fin bs → Fin sk → Fin (h * d) → ℝ)
    (value : Fin bs → Fin sk → Fin (h * d) → ℝ) :
    Fin bs → Fin sq → Fin (h * d) → ℝ :=
  einsum_ij_jk
    (fun b i kk => referenceHead wq wk wv query key value (headOf kk) b i (dimOf kk))
    wo

/-- C1: with dropout disabled, the fused-projection-then-view/permute
implementation of `MultiHeadAttentionLayer.forward` coincides with the
textbook per-head reference: the output is `Concat(head_1, ..., head_h)`
applied to `out_proj`, where the heads use the `head_dim`-wide column blocks
of the fused projection matrices, and the returned attention tensor is the
per-head softmax of the scaled dot products. -/
theorem multi_head_attention_refines_per_head_reference {bs sq sk h d : ℕ}
    (wq wk wv wo : Fin (h * d) → Fin (h * d) → ℝ)
    (query : Fin bs → Fin sq → Fin (h * d) → ℝ)
    (key : Fin bs → Fin sk → Fin (h * d) → ℝ)
    (value : Fin bs → Fin sk → Fin (h * d) → ℝ) :
    (MultiHeadAttentionLayer_forward wq wk wv wo query key value none).1 =
      referenceMultiHeadAttention wq wk wv wo query key value ∧
    ∀ (b : Fin bs) (hh : Fin h) (i : Fin sq) (j : Fin sk),
      (MultiHeadAttentionLayer_forward wq wk wv wo query key value none).2 (b, hh) i j =
        softmaxR (fun jj =>
          (∑ t, einsum_ij_jk query (headSlice wq hh) b i t *
              einsum_ij_jk key (headSlice wk hh) b jj t) / Real.sqrt d) j :=
  ⟨rfl, fun _ _ _ _ => rfl⟩

/-- C2 (amended): `ScaledDotProductAttention.forward` with dropout disabled
returns `(attention @ v, attention)` with `attention` the softmax over the
last dimension of `energy = (q @ k^T) / scale`, where positions whose mask
entry is `0` are replaced by `-1e10` before the softmax; whenever there is at
least one key position, the attention weights of each query row sum to 1. -/
theorem scaled_dot_product_attention_spec {β : Type} {m n d u : ℕ} (scale : ℝ)
    (q : β → Fin m → Fin d → ℝ) (k : β → Fin n → Fin d → ℝ)
    (v : β → Fin n → Fin u → ℝ) (mask : Option (β → Fin m → Fin n → ℤ)) :
    (∀ b i j, (ScaledDotProductAttention_forward scale q k v mask).2 b i j =
      softmaxR (fun jj =>
        match mask with
        | none => (∑ t, q b i t * k b jj t) / scale
        | some msk => if msk b i jj = 0 then -(10 : ℝ) ^ 10
            else (∑ t, q b i t * k b jj t) / scale) j) ∧
    (∀ b i t, (ScaledDotProductAttention_forward scale q k v mask).1 b i t =
      ∑ j, (ScaledDotProductAttention_forward scale q k v mask).2 b i j * v b j t) ∧
    (0 < n → ∀ b i,
      ∑ j, (ScaledDotProductAttention_forward scale q k v mask).2 b i j = 1) := by
  refine ⟨?_, ?_, ?_⟩
  · intro b i j
    cases mask <;> rfl
  · intro b i t
    rfl
  · intro hn b i
    haveI : Nonempty (Fin n) := ⟨⟨0, hn⟩⟩
    show ∑ j, softmaxR (maskedFill mask (sdpaEnergy scale q k) b i) j = 1
    unfold softmaxR
    rw [← Finset.sum_div]
    exact div_self (ne_of_gt (Finset.sum_pos (fun i2 _ => Real.exp_pos _)
      Finset.univ_nonempty))

/-- Witness for C2 at a concrete input with one key position. -/
theorem scaled_dot_product_attention_spec_witness :
    (0 : ℕ) < 1 ∧
    ∑ j : Fin 1, (ScaledDotProductAttention_forward (β := Unit)
        (m := 1) (n := 1) (d := 1) (u := 1) 1
        (fun _ _ _ => 0) (fun _ _ _ => 0) (fun _ _ _ => 0) none).2 () 0 j = 1 :=
  ⟨Nat.one_pos,
    (scaled_dot_product_attention_spec (β := Unit) 1
      (fun _ _ _ => 0) (fun _ _ _ => 0) (fun _ _ _ => 0) none).2.2
      Nat.one_pos () 0⟩

/-- Counterexample to C2 as stated: with zero key positions (a compatible
shape), a query row's attention weights sum to `0`, not `1`. -/
theorem scaled_dot_product_attention_counterexample :
    ∑ j : Fin 0, (ScaledDotProductAttention_forward (β := Unit)
        (m := 1) (n := 0) (d := 1) (u := 1) 1
        (fun _ _ _ => 0) (fun _ _ _ => 0) (fun _ _ _ => 0) none).2 () 0 j = 0 ∧
    (0 : ℝ) ≠ 1 :=
  ⟨by simp, by norm_num⟩

end TensorModel

/-! ### `encoders/encoders.py`: `RNFEncoder` -/

/-- The state of an `RNFEncoder`: `vocab.encoding` (a token-to-id dict,
modelled as a map into `Option`) and `target_encoding` (a label-to-id dict). -/
structure RNFEncoder where
  vocab_encoding : String → Option ℕ
  target_encoding : String → Option ℕ

/-- Model of `[self.vocab.encoding.get(word, 1) for word in example[0]]`: tokens absent
from the vocabulary encoding get the default id `1`. -/
def encodeTokens (venc : String → Option ℕ) (ws : List String) : List ℕ :=
  ws.map (fun w => (venc w).getD 1)

/-- Model of `RNFEncoder._encode(example)`: the token ids together with
`self.target_encoding[example[1]]`; a label absent from `target_encoding`
raises a `KeyError`, modelled by `none`. -/
def RNFEncoder_encode (e : RNFEncoder) (ex : List String × String) :
    Option (List ℕ × ℕ) :=
  let text := encodeTokens e.vocab_encoding ex.1
  match e.target_encoding ex.2 with
  | none => none
  | some lab => some (text, lab)

/-- An `Option`-valued traversal of a list, modelling a Python list comprehension
in which each element's computation may raise. -/
def optionMapList {σ τ : Type} (f : σ → Option τ) : List σ → Option (List τ)
  | [] => some []
  | x :: xs =>
    match f x, optionMapList f xs with
    | some y, some ys => some (y :: ys)
    | _, _ => none

/-- Model of `(batch.map (fun ex => ex.1.length)).foldr max 0`: the maximum token-list
length in a batch. -/
def textMaxLen (batch : List (List String × String)) : ℕ :=
  (batch.map (fun ex => ex.1.length)).foldr max 0

/-- Model of `torch.nn.utils.rnn.pad_sequence(data, batch_first=True)`: right-pad every
row with the padding value `0` up to the maximum row length. -/
def pad_sequence (rows : List (List ℕ)) : List (List ℕ) :=
  let maxLen := (rows.map List.length).foldr max 0
  rows.map (fun r => r ++ List.replicate (maxLen - r.length) 0)

/-- Model of `RNFEncoder.__call__(batch)`: encode every example, pad the id sequences,
and collect the targets. -/
def RNFEncoder_call (e : RNFEncoder) (batch : List (List String × String)) :
    Option (List (List ℕ) × List ℕ) :=
  match optionMapList (RNFEncoder_encode e) batch with
  | none => none
  | some encoded =>
    let data := encoded.map Prod.fst
    let targets := encoded.map Prod.snd
    some (pad_sequence data, targets)

/-- Any member of a list is bounded by the `foldr max 0` of the list. -/
theorem le_foldr_max {l : List ℕ} {x : ℕ} (hx : x ∈ l) : x ≤ l.foldr max 0 := by
  induction hx with
  | head as => exact le_max_left _ _
  | tail b hb ih => exact le_trans ih (le_max_right _ _)

/-- When every label of a batch is in the domain of `target_encoding`, the
elementwise encoding succeeds and is the evident map. -/
theorem optionMapList_encode_eq (e : RNFEncoder) :
    ∀ batch : List (List String × String),
      (∀ ex ∈ batch, (e.target_encoding ex.2).isSome) →
      optionMapList (RNFEncoder_encode e) batch =
        some (batch.map (fun ex =>
          (encodeTokens e.vocab_encoding ex.1, (e.target_encoding ex.2).getD 0))) := by
  intro batch
  induction batch with
  | nil => intro _; rfl
  | cons ex exs ih =>
    intro hlab
    have h1 : (e.target_encoding ex.2).isSome := hlab ex (List.mem_cons_self ex exs)
    have h2 := ih (fun p hp => hlab p (List.mem_cons_of_mem ex hp))
    rcases hopt : e.target_encoding ex.2 with _ | lab
    · rw [hopt] at h1; simp at h1
    · simp only [optionMapList, RNFEncoder_encode, hopt, h2, List.map_cons]
      simp [hopt]

/-- Applying `pad_sequence` over the encoded rows of a batch pads each row to the
maximum token-list length of the batch. -/
theorem pad_sequence_map (venc : String → Option ℕ)
    (batch : List (List String × String)) :
    pad_sequence (batch.map (fun ex => encodeTokens venc ex.1)) =
      batch.map (fun ex => encodeTokens venc ex.1 ++
        List.replicate (textMaxLen batch - ex.1.length) 0) := by
  unfold pad_sequence textMaxLen
  have hlen : (batch.map (fun ex => encodeTokens venc ex.1)).map List.length =
      batch.map (fun ex => ex.1.length) := by
    simp [List.map_map, Function.comp, encodeTokens]
  rw [hlen, List.map_map]
  simp [Function.comp, encodeTokens]

/-- C3: on a batch whose labels are all in the domain of `target_encoding`,
`RNFEncoder.__call__` returns the matrix of token-id rows (unknown tokens get
id `1`) right-padded with `0` to the maximum token-list length of the batch,
together with the encoded targets in batch order; every row length is bounded
by that maximum. -/
theorem rnf_encoder_call_spec (e : RNFEncoder)
    (batch : List (List String × String)) (hne : batch ≠ [])
    (hlab : ∀ ex ∈ batch, (e.target_encoding ex.2).isSome) :
    RNFEncoder_call e batch =
      some (batch.map (fun ex =>
          ex.1.map (fun w => (e.vocab_encoding w).getD 1) ++
            List.replicate (textMaxLen batch - ex.1.length) 0),
        batch.map (fun ex => (e.target_encoding ex.2).getD 0)) ∧
    ∀ ex ∈ batch, ex.1.length ≤ textMaxLen batch := by
  constructor
  · unfold RNFEncoder_call
    rw [optionMapList_encode_eq e batch hlab]
    show some (pad_sequence _, _) = _
    rw [List.map_map, List.map_map]
    show some (pad_sequence (batch.map (fun ex => encodeTokens e.vocab_encoding ex.1)), _) = _
    rw [pad_sequence_map]
    rfl
  · intro ex hx
    exact le_foldr_max (List.mem_map_of_mem _ hx)

/-- Witness for C3 at a concrete two-example batch with an out-of-vocabulary
token. -/
theorem rnf_encoder_call_spec_witness :
    RNFEncoder_call
      ⟨fun w => if w = "good" then some 2 else none,
        fun l => if l = "positive" then some 1 else
          if l = "negative" then some 0 else none⟩
      [(["good", "bad"], "positive"), (["good"], "negative")] =
      some ([[2, 1], [2, 0]], [1, 0]) :=
  (rnf_encoder_call_spec
      ⟨fun w => if w = "good" then some 2 else none,
        fun l => if l = "positive" then some 1 else
          if l = "negative" then some 0 else none⟩
      [(["good", "bad"], "positive"), (["good"], "negative")]
      (by decide) (by decide)).1

/-- C9: `RNFEncoder._encode` is total on examples whose label is a key of
`target_encoding` (tokens absent from the vocabulary map to the default id
`1` instead of raising), and fails exactly on examples whose label is not a
key of `target_encoding`. -/
theorem rnf_encode_total_spec (e : RNFEncoder) :
    (∀ ex : List String × String, (e.target_encoding ex.2).isSome →
      RNFEncoder_encode e ex =
        some (ex.1.map (fun w => (e.vocab_encoding w).getD 1),
          (e.target_encoding ex.2).getD 0)) ∧
    (∀ ex : List String × String, e.target_encoding ex.2 = none →
      RNFEncoder_encode e ex = none) := by
  constructor
  · intro ex h
    rcases hopt : e.target_encoding ex.2 with _ | lab
    · rw [hopt] at h; simp at h
    · simp [RNFEncoder_encode, hopt, encodeTokens]
  · intro ex h
    simp [RNFEncoder_encode, h]

/-- Witness for C9: a present label encodes, an absent label fails. -/
theorem rnf_encode_total_spec_witness :
    RNFEncoder_encode
      ⟨fun w => if w = "good" then some 2 else none,
        fun l => if l = "positive" then some 1 else none⟩
      (["good", "bad"], "positive") = some ([2, 1], 1) ∧
    RNFEncoder_encode
      ⟨fun w => if w = "good" then some 2 else none,
        fun l => if l = "positive" then some 1 else none⟩
      (["good"], "neutral") = none :=
  ⟨(rnf_encode_total_spec
      ⟨fun w => if w = "good" then some 2 else none,
        fun l => if l = "positive" then some 1 else none⟩).1
      (["good", "bad"], "positive") (by decide),
    (rnf_encode_total_spec
      ⟨fun w => if w = "good" then some 2 else none,
        fun l => if l = "positive" then some 1 else none⟩).2
      (["good"], "neutral") (by decide)⟩

/-! ### `datasets/base.py` and `datamodule/datamodule.py` -/

/-- A single labeled text instance: tokenized text plus class label. -/
structure Example where
  text : List String
  label : String
deriving DecidableEq, Repr

/-- Modelled from the spec: `TextDataset` (defined in `datasets/base.py`,
which is not among the provided sources) is, per the glossary, a collection
of `Example`s; it is modelled as the list of its examples, and a dataset
object that was provided to the `DataModule` is treated as truthy. -/
def TextDataset : Type := List Example

/-- Model of `DataModule.__init__`: stores the train dataset, the optional val and
test datasets, the encoder (collate function, of an arbitrary type `ε`), and
the batch size. -/
structure DataModule (ε : Type) where
  train : TextDataset
  val : Option TextDataset
  test : Option TextDataset
  encoder : ε
  batch_size : ℤ

/-- A `torch.utils.data.DataLoader` as constructed by this repository: the
dataset, the batch size, the `shuffle` flag (`False` when not passed), and
the collate function. -/
structure DLoader (ε : Type) where
  dataset : TextDataset
  batch_size : ℤ
  shuffle : Bool
  collate_fn : ε

/-- Model of `DataModule.train_dataloader`: always succeeds, with `shuffle=True`. -/
def DataModule.train_dataloader {ε : Type} (dm : DataModule ε) : DLoader ε :=
  ⟨dm.train, dm.batch_size, true, dm.encoder⟩

/-- Model of `DataModule.val_dataloader`: `raise ValueError` when no val dataset was
provided, else a loader over the val dataset in order (`shuffle=False`). -/
def DataModule.val_dataloader {ε : Type} (dm : DataModule ε) :
    Except Unit (DLoader ε) :=
  match dm.val with
  | none => .error ()
  | some v => .ok ⟨v, dm.batch_size, false, dm.encoder⟩

/-- Model of `DataModule.test_dataloader`: `raise ValueError` when no test dataset was
provided, else a loader over the test dataset in order (`shuffle=False`). -/
def DataModule.test_dataloader {ε : Type} (dm : DataModule ε) :
    Except Unit (DLoader ε) :=
  match dm.test with
  | none => .error ()
  | some t => .ok ⟨t, dm.batch_size, false, dm.encoder⟩

/-- C10: `val_dataloader`/`test_dataloader` raise `ValueError` exactly when
the corresponding dataset was not provided; when provided they return a
loader over that dataset with `shuffle=False` (dataset order preserved),
while `train_dataloader` always returns a loader with `shuffle=True`. The
translation is functional, so the `DataModule`'s fields are unchanged by
construction. -/
theorem datamodule_dataloader_spec {ε : Type} (dm : DataModule ε) :
    (dm.val_dataloader = .error () ↔ dm.val = none) ∧
    (dm.test_dataloader = .error () ↔ dm.test = none) ∧
    (∀ v, dm.val = some v →
      dm.val_dataloader = .ok ⟨v, dm.batch_size, false, dm.encoder⟩) ∧
    (∀ t, dm.test = some t →
      dm.test_dataloader = .ok ⟨t, dm.batch_size, false, dm.encoder⟩) ∧
    dm.train_dataloader = ⟨dm.train, dm.batch_size, true, dm.encoder⟩ := by
  refine ⟨?_, ?_, ?_, ?_, rfl⟩
  · cases h : dm.val <;> simp [DataModule.val_dataloader, h]
  · cases h : dm.test <;> simp [DataModule.test_dataloader, h]
  · intro v hv; simp [DataModule.val_dataloader, hv]
  · intro t ht; simp [DataModule.test_dataloader, ht]

/-- Witness for C10 on a concrete `DataModule` with a val dataset and no test
dataset. -/
theorem datamodule_dataloader_spec_witness :
    DataModule.val_dataloader (ε := Unit) ⟨[], some [⟨["a"], "positive"⟩], none, (), 16⟩ =
      .ok ⟨[⟨["a"], "positive"⟩], 16, false, ()⟩ ∧
    DataModule.test_dataloader (ε := Unit) ⟨[], some [⟨["a"], "positive"⟩], none, (), 16⟩ =
      .error () :=
  ⟨(datamodule_dataloader_spec
      (ε := Unit) ⟨[], some [⟨["a"], "positive"⟩], none, (), 16⟩).2.2.1
      [⟨["a"], "positive"⟩] rfl,
    (datamodule_dataloader_spec
      (ε := Unit) ⟨[], some [⟨["a"], "positive"⟩], none, (), 16⟩).2.1.mpr rfl⟩

/-! ### `scripts/rnf/hyperopt.py`: `OptunaCallback` -/

/-- The observable state of an Optuna trial, as the callback uses it: the
list of `(value, step)` pairs reported so far, and the library's pruning
predicate over that history. -/
structure TrialState where
  reports : List (Option ℝ × ℕ)
  pruner : List (Option ℝ × ℕ) → Bool

/-- Model of `trial.report(value, step)` appends to the report history. -/
def TrialState.report (t : TrialState) (value : Option ℝ) (step : ℕ) :
    TrialState :=
  ⟨t.reports ++ [(value, step)], t.pruner⟩

/-- Model of `trial.should_prune()` consults the pruning predicate on the current
report history. -/
def TrialState.should_prune (t : TrialState) : Bool :=
  t.pruner t.reports

/-- Model of `OptunaCallback.on_epoch_end(trainer, pl_module)`: reads the monitored
metric from `trainer.callback_metrics`, reports it at `step = current_epoch`,
then raises `optuna.TrialPruned` iff `should_prune()` holds. Returns the
trial state after the report together with the outcome. -/
def OptunaCallback_on_epoch_end (monitor : String)
    (metrics : String → Option ℝ) (current_epoch : ℕ) (t : TrialState) :
    TrialState × Except String Unit :=
  let current_score := metrics monitor
  let t2 := t.report current_score current_epoch
  if t2.should_prune then
    (t2, .error ("Trial was pruned at epoch " ++ toString current_epoch ++ "."))
  else
    (t2, .ok ())

/-- C4: `on_epoch_end` first reports the monitored metric's current value at
step `current_epoch` (the report is in the history even when it then
prunes), and raises `TrialPruned` iff `should_prune()` on the post-report
state is true; when it is false the callback returns normally. -/
theorem optuna_callback_on_epoch_end_spec (monitor : String)
    (metrics : String → Option ℝ) (current_epoch : ℕ) (t : TrialState) :
    (OptunaCallback_on_epoch_end monitor metrics current_epoch t).1 =
      t.report (metrics monitor) current_epoch ∧
    ((∃ msg, (OptunaCallback_on_epoch_end monitor metrics current_epoch t).2 =
        .error msg) ↔
      (t.report (metrics monitor) current_epoch).should_prune = true) ∧
    ((t.report (metrics monitor) current_epoch).should_prune = false →
      OptunaCallback_on_epoch_end monitor metrics current_epoch t =
        (t.report (metrics monitor) current_epoch, .ok ())) := by
  cases hsp : (t.report (metrics monitor) current_epoch).should_prune <;>
    simp [OptunaCallback_on_epoch_end, hsp]

/-- Witness for C4 on a concrete trial whose pruner never fires. -/
theorem optuna_callback_on_epoch_end_spec_witness :
    OptunaCallback_on_epoch_end "val_epoch_loss" (fun _ => none) 0
        ⟨[], fun _ => false⟩ =
      (⟨[(none, 0)], fun _ => false⟩, .ok ()) :=
  (optuna_callback_on_epoch_end_spec "val_epoch_loss" (fun _ => none) 0
      ⟨[], fun _ => false⟩).2.2 rfl

/-! ### `utils/datasets.py`, `datasets/sst.py`, `datasets/mr.py`

`nltk.tree.Tree` is an external collaborator; it is embedded as the inductive
type `NTree` below with NLTK's `leaves`, `label` and `subtrees` semantics
(`subtrees` yields the tree itself and then, recursively, the subtrees of
each `Tree`-valued child, in preorder; bare string leaves are not trees).
A text file is modelled as the list of its lines (for SST, each line already
parsed by `Tree.fromstring` into its tree). -/

/-- An NLTK tree: a labeled node whose children are trees or bare words. -/
inductive NTree where
  | leaf (word : String)
  | node (label : String) (children : List NTree)

mutual

/-- Model of `tree.leaves()`: the leaf words, in order. -/
def NTree.leaves : NTree → List String
  | .leaf w => [w]
  | .node _ cs => leavesList cs

/-- The concatenated leaves of a list of children. -/
def leavesList : List NTree → List String
  | [] => []
  | t :: ts => NTree.leaves t ++ leavesList ts

end

/-- Model of `tree.label()` (a bare leaf is never asked for its label by this code;
the leaf case returns the word as a junk value). -/
def NTree.label : NTree → String
  | .leaf w => w
  | .node l _ => l

mutual

/-- Model of `tree.subtrees()`: the tree itself followed by the subtrees of each
`Tree`-valued child, in preorder. -/
def NTree.subtrees : NTree → List NTree
  | .leaf _ => []
  | .node l cs => .node l cs :: subtreesList cs

/-- The concatenated subtrees of a list of children; bare leaves contribute
nothing. -/
def subtreesList : List NTree → List NTree
  | [] => []
  | t :: ts => NTree.subtrees t ++ subtreesList ts

end

/-- Python's `str.split()` with no separator: split on runs of whitespace,
dropping empty fields (so leading and trailing whitespace vanish). -/
def pySplitAux : List Char → List Char → List String
  | cur, [] => if cur.isEmpty then [] else [String.mk cur.reverse]
  | cur, c :: cs =>
    if c.isWhitespace then
      if cur.isEmpty then pySplitAux [] cs
      else String.mk cur.reverse :: pySplitAux [] cs
    else pySplitAux (c :: cur) cs

/-- Model of `line.split()`. -/
def pySplit (s : String) : List String := pySplitAux [] s.data

/-- Model of `" ".join(parts)`. -/
def joinSpace : List String → String
  | [] => ""
  | [w] => w
  | w :: v :: ws => w ++ " " ++ joinSpace (v :: ws)

/-- Model of `parse_line_tree(line, subtrees)`: one `[text, label]` pair per subtree
when `subtrees` is true, else a single pair for the whole tree; the text is
`" ".join(t.leaves())`. -/
def parse_line_tree (tree : NTree) (subtrees : Bool) :
    List (String × String) :=
  if subtrees then
    tree.subtrees.map (fun t => (joinSpace t.leaves, t.label))
  else
    [(joinSpace tree.leaves, tree.label)]

/-- Model of `parse_line_without_label(line, label)`: a single pair whose text is
`" ".join(line.split())`. -/
def parse_line_without_label (line : String) (label : String) :
    List (String × String) :=
  [(joinSpace (pySplit line), label)]

/-- Model of `get_data_from_file(filepath, parser)`: apply the parser to every line
and concatenate the results (`exs.extend(parser(line))`); the file is given
as its list of lines (of an arbitrary line type `α`). -/
def get_data_from_file {α : Type} (file : List α)
    (lineParse : α → List (String × String)) : List (String × String) :=
  (file.map lineParse).flatten

/-- Model of `map_list_to_example(element, tokenizer, filter_func, label_map)`:
build an `Example` from a `[text, raw_label]` pair, mapping the label
through `label_map` when one is given (a missing key raises, modelled by
`.error ()`), then return `None` (modelled `some .. / none` inside `.ok`)
when a supplied `filter_func` rejects the example. -/
def map_list_to_example (tok : String → List String)
    (filter_func : Option (Example → Bool))
    (label_map : Option (String → Option String))
    (element : String × String) : Except Unit (Option Example) :=
  match label_map with
  | some m =>
    match m element.2 with
    | none => .error ()
    | some lab =>
      let ex : Example := ⟨tok element.1, lab⟩
      match filter_func with
      | some f => .ok (if f ex then some ex else none)
      | none => .ok (some ex)
  | none =>
    let ex : Example := ⟨tok element.1, element.2⟩
    match filter_func with
    | some f => .ok (if f ex then some ex else none)
    | none => .ok (some ex)

/-- Model of `TextDataset([x for x in map(map_f, data) if x])`: map every parsed pair
and keep the non-`None` examples, propagating any raised error. -/
def buildTextDataset (map_f : String × String → Except Unit (Option Example)) :
    List (String × String) → Except Unit (List Example)
  | [] => .ok []
  | p :: ps =>
    match map_f p with
    | .error e => .error e
    | .ok o =>
      match buildTextDataset map_f ps with
      | .error e => .error e
      | .ok rest =>
        match o with
        | some ex => .ok (ex :: rest)
        | none => .ok rest

/-- The `label_map` of `SSTDataset`: `"0".."4"` with a `"very "` prefixed to the
extremes when `fine_grained` is set. -/
def sst_label_map (fine_grained : Bool) (s : String) : Option String :=
  if s = "0" then some ((if fine_grained then "very " else "") ++ "negative")
  else if s = "1" then some "negative"
  else if s = "2" then some "neutral"
  else if s = "3" then some "positive"
  else if s = "4" then some ((if fine_grained then "very " else "") ++ "positive")
  else none

/-- Model of `SSTDataset(...)`: one shared line parser `parse_line_tree` with
`subtrees = train_subtrees` is applied to the train, dev and test files
alike; each parsed pair goes through `map_list_to_example` with the SST
label map, and the three `TextDataset`s are returned. The tokenizer is the
chosen tokenizer callable. -/
def SSTDataset (train_file val_file test_file : List NTree)
    (train_subtrees : Bool) (tok : String → List String)
    (filter_func : Option (Example → Bool)) (fine_grained : Bool) :
    Except Unit (List Example × List Example × List Example) :=
  let lineParse := fun t => parse_line_tree t train_subtrees
  let train := get_data_from_file train_file lineParse
  let val := get_data_from_file val_file lineParse
  let test := get_data_from_file test_file lineParse
  let map_f := map_list_to_example tok filter_func (some (sst_label_map fine_grained))
  match buildTextDataset map_f train with
  | .error e => .error e
  | .ok tr =>
    match buildTextDataset map_f val with
    | .error e => .error e
    | .ok va =>
      match buildTextDataset map_f test with
      | .error e => .error e
      | .ok te => .ok (tr, va, te)

/-- Model of `MRDataset(...)`: parse the positive-polarity file with label
`"positive"` and the negative-polarity file with label `"negative"`,
concatenate (`pos + neg`), and map through `map_list_to_example` with
`label_map=None`. The Python function returns a one-element tuple holding
this single dataset. -/
def MRDataset (pos_file neg_file : List String)
    (tok : String → List String) (filter_func : Option (Example → Bool)) :
    Except Unit (List Example) :=
  let pos := get_data_from_file pos_file (fun l => parse_line_without_label l "positive")
  let neg := get_data_from_file neg_file (fun l => parse_line_without_label l "negative")
  let all_examples := pos ++ neg
  let map_f := map_list_to_example tok filter_func none
  buildTextDataset map_f all_examples

/-- Every example of a successfully built dataset comes from some parsed pair
that mapped to it. -/
theorem buildTextDataset_mem
    {map_f : String × String → Except Unit (Option Example)} :
    ∀ {data : List (String × String)} {ds : List Example} {ex : Example},
      buildTextDataset map_f data = .ok ds → ex ∈ ds →
      ∃ p ∈ data, map_f p = .ok (some ex) := by
  intro data
  induction data with
  | nil =>
    intro ds ex hb hex
    simp only [buildTextDataset, Except.ok.injEq] at hb
    subst hb
    cases hex
  | cons p ps ih =>
    intro ds ex hb hex
    rcases hmf : map_f p with e | o
    · rw [buildTextDataset, hmf] at hb
      cases hb
    · rcases hrest : buildTextDataset map_f ps with e | rest
      · rw [buildTextDataset, hmf, hrest] at hb
        cases hb
      · rcases o with _ | ex2
        · rw [buildTextDataset, hmf, hrest] at hb
          simp only [Except.ok.injEq] at hb
          subst hb
          rcases ih hrest hex with ⟨q, hq, hqex⟩
          exact ⟨q, List.mem_cons_of_mem p hq, hqex⟩
        · rw [buildTextDataset, hmf, hrest] at hb
          simp only [Except.ok.injEq] at hb
          subst hb
          rcases List.mem_cons.mp hex with hx | hx
          · exact ⟨p, List.mem_cons_self p ps, by rw [hmf, hx]⟩
          · rcases ih hrest hx with ⟨q, hq, hqex⟩
            exact ⟨q, List.mem_cons_of_mem p hq, hqex⟩

/-- What `map_list_to_example` returning a kept example guarantees about that
example. -/
theorem map_list_to_example_ok_some {tok : String → List String}
    {filter_func : Option (Example → Bool)}
    {label_map : Option (String → Option String)} {p : String × String}
    {ex : Example}
    (h : map_list_to_example tok filter_func label_map p = .ok (some ex)) :
    ex.text = tok p.1 ∧
    (∀ m, label_map = some m → m p.2 = some ex.label) ∧
    (label_map = none → ex.label = p.2) ∧
    (∀ f, filter_func = some f → f ex = true) := by
  rcases label_map with _ | m
  · rcases filter_func with _ | f
    · simp only [map_list_to_example, Except.ok.injEq, Option.some.injEq] at h
      subst h
      refine ⟨rfl, ?_, fun _ => rfl, ?_⟩
      · intro m2 hm2; cases hm2
      · intro f2 hf2; cases hf2
    · simp only [map_list_to_example] at h
      by_cases hf : f ⟨tok p.1, p.2⟩ = true
      · rw [if_pos hf] at h
        simp only [Except.ok.injEq, Option.some.injEq] at h
        subst h
        refine ⟨rfl, ?_, fun _ => rfl, ?_⟩
        · intro m2 hm2; cases hm2
        · intro f2 hf2; cases hf2; exact hf
      · rw [if_neg hf] at h
        simp at h
  · rcases hm : m p.2 with _ | lab
    · simp only [map_list_to_example, hm] at h
      cases h
    · rcases filter_func with _ | f
      · simp only [map_list_to_example, hm, Except.ok.injEq, Option.some.injEq] at h
        subst h
        refine ⟨rfl, ?_, ?_, ?_⟩
        · intro m2 hm2; cases hm2; exact hm
        · intro hn; cases hn
        · intro f2 hf2; cases hf2
      · simp only [map_list_to_example, hm] at h
        by_cases hf : f ⟨tok p.1, lab⟩ = true
        · rw [if_pos hf] at h
          simp only [Except.ok.injEq, Option.some.injEq] at h
          subst h
          refine ⟨rfl, ?_, ?_, ?_⟩
          · intro m2 hm2; cases hm2; exact hm
          · intro hn; cases hn
          · intro f2 hf2; cases hf2; exact hf
        · rw [if_neg hf] at h
          simp at h

/-- Every example of a successfully built SST split is the tokenization of a
parsed `[sentence, raw_label]` pair, with the raw label mapped through the
SST label map, and passes the filter when one is supplied. -/
theorem sst_split_examples {file : List NTree} {st : Bool}
    {tok : String → List String} {ff : Option (Example → Bool)} {fg : Bool}
    {ds : List Example}
    (hb : buildTextDataset
        (map_list_to_example tok ff (some (sst_label_map fg)))
        (get_data_from_file file (fun t => parse_line_tree t st)) = .ok ds) :
    ∀ ex ∈ ds,
      (∃ p ∈ get_data_from_file file (fun t => parse_line_tree t st),
        ex.text = tok p.1 ∧ sst_label_map fg p.2 = some ex.label) ∧
      (∀ f, ff = some f → f ex = true) := by
  intro ex hex
  rcases buildTextDataset_mem hb hex with ⟨p, hp, hpex⟩
  rcases map_list_to_example_ok_some hpex with ⟨ht, hmap, _, hfil⟩
  exact ⟨⟨p, hp, ht, hmap _ rfl⟩, hfil⟩

/-- Membership in the parsed data of an unlabeled-line file. -/
theorem mem_get_data_without_label {file : List String} {lab : String}
    {p : String × String}
    (hp : p ∈ get_data_from_file file (fun l => parse_line_without_label l lab)) :
    ∃ line ∈ file, p = (joinSpace (pySplit line), lab) := by
  simp only [get_data_from_file, parse_line_without_label, List.mem_flatten,
    List.mem_map] at hp
  rcases hp with ⟨l, ⟨line, hline, rfl⟩, hpl⟩
  exact ⟨line, hline, List.mem_singleton.mp hpl⟩

/-- C5: every element of every dataset returned by `SSTDataset` is an
`Example` whose text is the chosen tokenizer applied to a parsed raw
sentence and whose label is the raw tree label mapped through the label map
(for SST) or the polarity label of the source file (for MR); when a
`filter_func` is supplied every element satisfies it. -/
theorem dataset_examples_invariant :
    (∀ (train_file val_file test_file : List NTree) (st : Bool)
        (tok : String → List String) (ff : Option (Example → Bool)) (fg : Bool)
        (tr va te : List Example),
      SSTDataset train_file val_file test_file st tok ff fg = .ok (tr, va, te) →
      (∀ ex ∈ tr,
        (∃ p ∈ get_data_from_file train_file (fun t => parse_line_tree t st),
          ex.text = tok p.1 ∧ sst_label_map fg p.2 = some ex.label) ∧
        (∀ f, ff = some f → f ex = true)) ∧
      (∀ ex ∈ va,
        (∃ p ∈ get_data_from_file val_file (fun t => parse_line_tree t st),
          ex.text = tok p.1 ∧ sst_label_map fg p.2 = some ex.label) ∧
        (∀ f, ff = some f → f ex = true)) ∧
      (∀ ex ∈ te,
        (∃ p ∈ get_data_from_file test_file (fun t => parse_line_tree t st),
          ex.text = tok p.1 ∧ sst_label_map fg p.2 = some ex.label) ∧
        (∀ f, ff = some f → f ex = true))) ∧
    (∀ (pos_file neg_file : List String) (tok : String → List String)
        (ff : Option (Example → Bool)) (ds : List Example),
      MRDataset pos_file neg_file tok ff = .ok ds →
      ∀ ex ∈ ds,
        (∃ line, ((line ∈ pos_file ∧ ex.label = "positive") ∨
            (line ∈ neg_file ∧ ex.label = "negative")) ∧
          ex.text = tok (joinSpace (pySplit line))) ∧
        (∀ f, ff = some f → f ex = true)) := by
  constructor
  · intro train_file val_file test_file st tok ff fg tr va te h
    simp only [SSTDataset] at h
    split at h
    · cases h
    · rename_i tr2 htr
      split at h
      · cases h
      · rename_i va2 hva
        split at h
        · cases h
        · rename_i te2 hte
          injection h with h
          cases h
          exact ⟨sst_split_examples htr, sst_split_examples hva,
            sst_split_examples hte⟩
  · intro pos_file neg_file tok ff ds h ex hex
    simp only [MRDataset] at h
    rcases buildTextDataset_mem h hex with ⟨p, hp, hpex⟩
    rcases map_list_to_example_ok_some hpex with ⟨ht, _, hlab, hfil⟩
    have hlab2 := hlab rfl
    rcases List.mem_append.mp hp with hp2 | hp2
    · rcases mem_get_data_without_label hp2 with ⟨line, hline, rfl⟩
      exact ⟨⟨line, Or.inl ⟨hline, hlab2⟩, ht⟩, hfil⟩
    · rcases mem_get_data_without_label hp2 with ⟨line, hline, rfl⟩
      exact ⟨⟨line, Or.inr ⟨hline, hlab2⟩, ht⟩, hfil⟩

/-- Witness for C5: a one-line SST corpus with a filter, and a one-line MR
positive file whose line has doubled inner whitespace. -/
theorem dataset_examples_invariant_witness :
    ((∃ p ∈ get_data_from_file [NTree.node "3" [NTree.leaf "fine"]]
          (fun t => parse_line_tree t false),
        (⟨["fine"], "positive"⟩ : Example).text = (fun s => [s]) p.1 ∧
          sst_label_map false p.2 = some (⟨["fine"], "positive"⟩ : Example).label) ∧
      (fun ex : Example => ex.label == "positive") ⟨["fine"], "positive"⟩ = true) ∧
    ((∃ line, ((line ∈ ["a  movie"] ∧
            (⟨["a movie"], "positive"⟩ : Example).label = "positive") ∨
          (line ∈ ([] : List String) ∧
            (⟨["a movie"], "positive"⟩ : Example).label = "negative")) ∧
        (⟨["a movie"], "positive"⟩ : Example).text =
          (fun s => [s]) (joinSpace (pySplit line))) ∧
      (fun ex : Example => ex.label == "positive") ⟨["a movie"], "positive"⟩ = true) := by
  constructor
  · have happ := (dataset_examples_invariant.1
        [NTree.node "3" [NTree.leaf "fine"]] [NTree.node "3" [NTree.leaf "fine"]]
        [NTree.node "3" [NTree.leaf "fine"]] false (fun s => [s])
        (some (fun ex : Example => ex.label == "positive")) false
        [⟨["fine"], "positive"⟩] [⟨["fine"], "positive"⟩] [⟨["fine"], "positive"⟩]
        rfl).1 ⟨["fine"], "positive"⟩ (by decide)
    exact ⟨happ.1, happ.2 _ rfl⟩
  · have happ := (dataset_examples_invariant.2 ["a  movie"] []
        (fun s => [s]) (some (fun ex : Example => ex.label == "positive"))
        [⟨["a movie"], "positive"⟩] rfl) ⟨["a movie"], "positive"⟩ (by decide)
    exact ⟨happ.1, happ.2 _ rfl⟩

/-- With no filter, a successfully built dataset has exactly one example per
parsed pair (a label outside the label map would instead raise). -/
theorem buildTextDataset_length_no_filter {tok : String → List String}
    {lm : String → Option String} :
    ∀ {data : List (String × String)} {ds : List Example},
      buildTextDataset (map_list_to_example tok none (some lm)) data = .ok ds →
      ds.length = data.length := by
  intro data
  induction data with
  | nil =>
    intro ds hb
    simp only [buildTextDataset, Except.ok.injEq] at hb
    subst hb
    rfl
  | cons p ps ih =>
    intro ds hb
    rcases hm : lm p.2 with _ | lab
    · have hmf : map_list_to_example tok none (some lm) p = .error () := by
        simp [map_list_to_example, hm]
      rw [buildTextDataset, hmf] at hb
      cases hb
    · have hmf : map_list_to_example tok none (some lm) p =
          .ok (some ⟨tok p.1, lab⟩) := by
        simp [map_list_to_example, hm]
      rw [buildTextDataset, hmf] at hb
      rcases hrest : buildTextDataset (map_list_to_example tok none (some lm)) ps
        with e | rest
      · rw [hrest] at hb
        cases hb
      · rw [hrest] at hb
        simp only [Except.ok.injEq] at hb
        subst hb
        simp [ih hrest]

/-- Summing the constant `1` over a list counts its elements. -/
theorem sum_map_one {α : Type} (l : List α) : (l.map fun _ => 1).sum = l.length := by
  induction l with
  | nil => rfl
  | cons x xs ih => simp [ih, Nat.add_comm]

/-- The number of pairs `parse_line_tree` produces for a file: one per
subtree when `subtrees` is set, else one per line. -/
theorem get_data_parse_tree_length (file : List NTree) (st : Bool) :
    (get_data_from_file file (fun t => parse_line_tree t st)).length =
      if st then (file.map (fun t => t.subtrees.length)).sum
      else file.length := by
  unfold get_data_from_file
  rw [List.length_flatten, List.map_map]
  cases st
  · simp only [if_neg Bool.false_ne_true]
    have : (List.length ∘ fun t => parse_line_tree t false) = fun _ => 1 := by
      funext t
      simp [parse_line_tree]
    rw [this, sum_map_one]
  · have h2 : (List.length ∘ fun t => parse_line_tree t true) =
        fun t : NTree => t.subtrees.length := by
      funext t
      simp [parse_line_tree]
    rw [h2]
    simp

/-- C6: `SSTDataset` builds one line parser (with `subtrees = train_subtrees`)
and applies it to the train, dev and test files alike; with no filter, when
`train_subtrees` is true every split (validation and test included) has one
example per subtree of each parse tree, and when it is false every split has
exactly one example per line. -/
theorem sst_parser_shared_across_splits
    (train_file val_file test_file : List NTree) (st : Bool)
    (tok : String → List String) (fg : Bool) (tr va te : List Example)
    (h : SSTDataset train_file val_file test_file st tok none fg =
      .ok (tr, va, te)) :
    (st = true →
      tr.length = (train_file.map (fun t => t.subtrees.length)).sum ∧
      va.length = (val_file.map (fun t => t.subtrees.length)).sum ∧
      te.length = (test_file.map (fun t => t.subtrees.length)).sum) ∧
    (st = false →
      tr.length = train_file.length ∧
      va.length = val_file.length ∧
      te.length = test_file.length) := by
  simp only [SSTDataset] at h
  split at h
  · cases h
  · rename_i tr2 htr
    split at h
    · cases h
    · rename_i va2 hva
      split at h
      · cases h
      · rename_i te2 hte
        injection h with h
        cases h
        have ltr := buildTextDataset_length_no_filter htr
        have lva := buildTextDataset_length_no_filter hva
        have lte := buildTextDataset_length_no_filter hte
        constructor
        · intro hst
          subst hst
          rw [ltr, lva, lte, get_data_parse_tree_length,
            get_data_parse_tree_length, get_data_parse_tree_length]
          simp
        · intro hst
          subst hst
          rw [ltr, lva, lte, get_data_parse_tree_length,
            get_data_parse_tree_length, get_data_parse_tree_length]
          simp

/-- Witness for C6: with subtrees on, a 2-subtree tree yields 2 examples per
split; with subtrees off, 1 example per line in every split. -/
theorem sst_parser_shared_across_splits_witness :
    (([⟨["good"], "positive"⟩, ⟨["good"], "negative"⟩] : List Example).length =
        (([NTree.node "3" [NTree.node "1" [NTree.leaf "good"]]]).map
          (fun t => t.subtrees.length)).sum ∧
      ([⟨["good"], "positive"⟩, ⟨["good"], "negative"⟩] : List Example).length =
        (([NTree.node "3" [NTree.node "1" [NTree.leaf "good"]]]).map
          (fun t => t.subtrees.length)).sum ∧
      ([⟨["good"], "positive"⟩, ⟨["good"], "negative"⟩] : List Example).length =
        (([NTree.node "3" [NTree.node "1" [NTree.leaf "good"]]]).map
          (fun t => t.subtrees.length)).sum) ∧
    (([⟨["good"], "positive"⟩] : List Example).length =
        ([NTree.node "3" [NTree.node "1" [NTree.leaf "good"]]] : List NTree).length ∧
      ([⟨["good"], "positive"⟩] : List Example).length =
        ([NTree.node "3" [NTree.node "1" [NTree.leaf "good"]]] : List NTree).length ∧
      ([⟨["good"], "positive"⟩] : List Example).length =
        ([NTree.node "3" [NTree.node "1" [NTree.leaf "good"]]] : List NTree).length) :=
  ⟨(sst_parser_shared_across_splits
      [NTree.node "3" [NTree.node "1" [NTree.leaf "good"]]]
      [NTree.node "3" [NTree.node "1" [NTree.leaf "good"]]]
      [NTree.node "3" [NTree.node "1" [NTree.leaf "good"]]]
      true (fun s => [s]) false _ _ _ rfl).1 rfl,
    (sst_parser_shared_across_splits
      [NTree.node "3" [NTree.node "1" [NTree.leaf "good"]]]
      [NTree.node "3" [NTree.node "1" [NTree.leaf "good"]]]
      [NTree.node "3" [NTree.node "1" [NTree.leaf "good"]]]
      false (fun s => [s]) false _ _ _ rfl).2 rfl⟩

/-- Counterexample to C6 as stated: its "for every input" includes inputs
with a `filter_func`, and a filter that rejects every example makes every
split empty even though the single train/dev/test tree has two subtrees. -/
theorem sst_filter_counterexample :
    SSTDataset [NTree.node "3" [NTree.node "1" [NTree.leaf "good"]]]
        [NTree.node "3" [NTree.node "1" [NTree.leaf "good"]]]
        [NTree.node "3" [NTree.node "1" [NTree.leaf "good"]]]
        true (fun s => [s]) (some (fun _ => false)) false =
      .ok ([], [], []) ∧
    (([NTree.node "3" [NTree.node "1" [NTree.leaf "good"]]]).map
      (fun t => t.subtrees.length)).sum = 2 ∧
    ([] : List Example).length ≠ 2 :=
  ⟨rfl, rfl, by decide⟩

/-- Parsing an unlabeled-line file yields one pair per line, with the line
split on whitespace and re-joined with single spaces. -/
theorem get_data_without_label_eq (file : List String) (lab : String) :
    get_data_from_file file (fun l => parse_line_without_label l lab) =
      file.map (fun l => (joinSpace (pySplit l), lab)) := by
  induction file with
  | nil => rfl
  | cons l ls ih =>
    simp only [get_data_from_file, List.map_cons, List.flatten_cons,
      parse_line_without_label] at ih ⊢
    rw [ih]
    rfl

/-- With no label map, building a dataset never raises and keeps, in order,
exactly the mapped examples accepted by the filter. -/
theorem buildTextDataset_no_label_map (tok : String → List String)
    (ff : Option (Example → Bool)) :
    ∀ data : List (String × String),
      buildTextDataset (map_list_to_example tok ff none) data =
        .ok ((data.map (fun p => Example.mk (tok p.1) p.2)).filter
          (fun ex => match ff with | some f => f ex | none => true)) := by
  intro data
  induction data with
  | nil => rfl
  | cons p ps ih =>
    rcases ff with _ | f
    · rw [buildTextDataset,
        show map_list_to_example tok none none p =
          .ok (some ⟨tok p.1, p.2⟩) from rfl, ih]
      simp [List.filter]
    · rw [buildTextDataset,
        show map_list_to_example tok (some f) none p =
          .ok (if f ⟨tok p.1, p.2⟩ then some ⟨tok p.1, p.2⟩ else none) from rfl,
        ih]
      by_cases hf : f ⟨tok p.1, p.2⟩ = true
      · simp [List.filter, hf]
      · simp [List.filter, hf]

/-- C7 (amended): `MRDataset` never raises and returns the single dataset
whose examples are those parsed from the positive-polarity file labeled
`"positive"` followed by those from the negative-polarity file labeled
`"negative"`, in file line order, minus the examples rejected by
`filter_func`; each line's text is the line split on whitespace and
re-joined with single spaces (collapsing inner runs and dropping leading and
trailing whitespace) before tokenization. -/
theorem mr_dataset_spec (pos_file neg_file : List String)
    (tok : String → List String) (ff : Option (Example → Bool)) :
    MRDataset pos_file neg_file tok ff =
      .ok ((pos_file.map (fun l => Example.mk (tok (joinSpace (pySplit l))) "positive") ++
          neg_file.map (fun l => Example.mk (tok (joinSpace (pySplit l))) "negative")).filter
        (fun ex => match ff with | some f => f ex | none => true)) := by
  simp only [MRDataset]
  rw [buildTextDataset_no_label_map, get_data_without_label_eq,
    get_data_without_label_eq, List.map_append, List.map_map, List.map_map]
  rfl

/-- The MR text normalisation exactly as the claim words it: each maximal
run of whitespace characters is collapsed to a single space (which leaves a
leading or trailing run as one space rather than removing it). -/
def squashWS : List Char → List Char
  | [] => []
  | [c] => if c.isWhitespace then [' '] else [c]
  | c :: d :: cs =>
    if c.isWhitespace && d.isWhitespace then squashWS (d :: cs)
    else (if c.isWhitespace then ' ' else c) :: squashWS (d :: cs)

/-- String version of `squashWS`: the claim's "runs of whitespace collapsed
to single spaces". -/
def collapse_runs_spec (s : String) : String := String.mk (squashWS s.data)

/-- Counterexample to C7 as stated: on the line `" a"`, the code's text is
`"a"` (leading whitespace is dropped entirely by `" ".join(line.split())`),
while collapsing runs of whitespace to single spaces would give `" a"`; with
the identity-like tokenizer the resulting example differs from the claim's
description. -/
theorem mr_whitespace_counterexample :
    MRDataset [" a"] [] (fun s => [s]) none = .ok [⟨["a"], "positive"⟩] ∧
    collapse_runs_spec " a" = " a" ∧
    (["a"] : List String) ≠ [" a"] :=
  ⟨rfl, rfl, by decide⟩

/-! ### `scripts/rnf/hyperopt.py`: `objective` -/

/-- An Optuna trial's suggestion interface as `objective` consumes it: each
`suggest_*` call is an oracle of the name and the (low, high) range. -/
structure OptunaTrial where
  suggest_int : String → ℤ → ℤ → ℤ
  suggest_float : String → ℝ → ℝ → ℝ

/-- The constructor arguments passed to `RNF(...)` (the model itself lives in
the external training framework). -/
structure RNFConfig where
  input_size : ℕ
  n_classes : ℕ
  filter_width : ℤ
  embed_dropout : ℝ
  dropout : ℝ
  lr : ℝ

/-- The externally observable trainer calls `objective` makes, in order. -/
inductive TrainerEvent (ε : Type) where
  | fit (model : RNFConfig) (train_dl val_dl : DLoader ε)
  | test (dl : DLoader ε) (ckpt_path : String)

/-- Model of `objective(trial, args)` after the dataset, vocabulary and embedding
steps (external data acquisition): wires the trial's suggested
hyperparameters into the `DataModule` and the `RNF` constructor, fits with
the train and validation dataloaders, tests at the best checkpoint path
(with the validation dataloader), and returns `results['test_epoch_loss']`
(`none` when the trainer's result dict lacks that key). The train, val and
test datasets, the vocabulary encoding and size, the checkpoint path chosen
by the checkpoint callback, and the trainer's test-result dict are inputs
supplied by those external collaborators. -/
def objective (trial : OptunaTrial) (fine_grained : Bool)
    (train val test : TextDataset) (vocab_encoding : String → Option ℕ)
    (input_size : ℕ) (best_model_path : String)
    (test_results : String → Option ℝ) :
    Except Unit (List (TrainerEvent RNFEncoder) × Option ℝ) :=
  let encoder : RNFEncoder := ⟨vocab_encoding,
    fun s => if s = "negative" then some 0 else
      if s = "positive" then some 1 else none⟩
  let ds : DataModule RNFEncoder :=
    ⟨train, some val, some test, encoder, trial.suggest_int "batch_size" 16 64⟩
  let model : RNFConfig :=
    ⟨input_size, if fine_grained then 5 else 2,
      trial.suggest_int "filter_width" 5 8,
      trial.suggest_float "embed_dropout" 0.2 0.4,
      trial.suggest_float "dropout" 0.2 0.4,
      trial.suggest_float "lr" 0.0001 0.001⟩
  match ds.val_dataloader with
  | .error e => .error e
  | .ok vdl =>
    match ds.val_dataloader with
    | .error e => .error e
    | .ok vdl2 =>
      .ok ([TrainerEvent.fit model ds.train_dataloader vdl,
            TrainerEvent.test vdl2 best_model_path],
        test_results "test_epoch_loss")

/-- C8: `objective` builds the `DataModule` with the suggested
`batch_size`, builds the model config from the suggested `filter_width`,
`embed_dropout`, `dropout` and `lr`, then calls `fit` with the train and
validation dataloaders followed by `test` with the best checkpoint path, and
returns the `'test_epoch_loss'` entry of the test results. -/
theorem objective_wiring_spec (trial : OptunaTrial) (fine_grained : Bool)
    (train val test : TextDataset) (vocab_encoding : String → Option ℕ)
    (input_size : ℕ) (best_model_path : String)
    (test_results : String → Option ℝ) :
    objective trial fine_grained train val test vocab_encoding input_size
        best_model_path test_results =
      .ok ([TrainerEvent.fit
          ⟨input_size, if fine_grained then 5 else 2,
            trial.suggest_int "filter_width" 5 8,
            trial.suggest_float "embed_dropout" 0.2 0.4,
            trial.suggest_float "dropout" 0.2 0.4,
            trial.suggest_float "lr" 0.0001 0.001⟩
          ⟨train, trial.suggest_int "batch_size" 16 64, true,
            ⟨vocab_encoding, fun s => if s = "negative" then some 0 else
              if s = "positive" then some 1 else none⟩⟩
          ⟨val, trial.suggest_int "batch_size" 16 64, false,
            ⟨vocab_encoding, fun s => if s = "negative" then some 0 else
              if s = "positive" then some 1 else none⟩⟩,
        TrainerEvent.test
          ⟨val, trial.suggest_int "batch_size" 16 64, false,
            ⟨vocab_encoding, fun s => if s = "negative" then some 0 else
              if s = "positive" then some 1 else none⟩⟩
          best_model_path],
        test_results "test_epoch_loss") :=
  rfl

end TextClassification
